import Mathlib

/-!
A verification development for the RockChip MPP video decoder adapter
(`libavcodec/rkmppdec.c`).  The C source is shallowly embedded: machine
integers become `Int`/`Nat`, engine calls become explicit result values
passed in, and the stateful decoder context becomes explicit state
records threaded through pure functions.  Opaque native handles
(`MppCtx`, `MppApi`, `MppBufferGroup`, raw pointers) are not represented;
only the fields the adapter's control flow reads and writes are kept,
and each definition's doc comment names the C function and lines it
embeds.
-/

namespace Rkmpp

/-- Constant `INPUT_MAX_PACKETS` from rkmppdec.c line 49. -/
def INPUT_MAX_PACKETS : Int := 4

/-- Constant `FRAMEGROUP_MAX_FRAMES` from rkmppdec.c line 48. -/
def FRAMEGROUP_MAX_FRAMES : Int := 16

/-- Value of `AVERROR(EAGAIN)`: negated POSIX EAGAIN (11 on Linux). -/
def AVERROR_EAGAIN : Int := -11

/-- Value of `AVERROR(ENOMEM)`: negated POSIX ENOMEM (12 on Linux). -/
def AVERROR_ENOMEM : Int := -12

/-- Value of `AVERROR_EOF`, FFERRTAG of the four chars E, O, F, space. -/
def AVERROR_EOF : Int := -541478725

/-- Value of `AVERROR_UNKNOWN`, FFERRTAG of the four chars U, N, K, N. -/
def AVERROR_UNKNOWN : Int := -1313558101

/-- Value of `AV_NOPTS_VALUE`, INT64_MIN, the timestamp-unset sentinel. -/
def AV_NOPTS_VALUE : Int := -(2 ^ 63)

/-- fourcc of `DRM_FORMAT_NV12` (chars N, V, 1, 2 little endian). -/
def DRM_FORMAT_NV12 : Int := 842094158

/-- fourcc of `DRM_FORMAT_NV12_10` (chars N, A, 1, 2 little endian). -/
def DRM_FORMAT_NV12_10 : Int := 842088782

/-- Status values of the MPP engine API that rkmppdec.c distinguishes:
`MPP_OK`, `MPP_ERR_BUFFER_FULL`, `MPP_ERR_TIMEOUT`; every other failure
code behaves identically in the adapter and is collapsed to `mppNok`. -/
inductive MppRet where
  | mppOk
  | mppErrBufferFull
  | mppErrTimeout
  | mppNok
  deriving DecidableEq

/-- Pixel formats of the MPP engine that `rkmpp_get_frameformat`
distinguishes; everything else is `other`. -/
inductive MppFrameFormat where
  | yuv420sp
  | yuv420sp10
  | other
  deriving DecidableEq

/-- Function `rkmpp_get_frameformat`, rkmppdec.c lines 94-103: map the engine's
pixel format onto a DRM fourcc, 0 when unknown. -/
def rkmpp_get_frameformat (fmt : MppFrameFormat) : Int :=
  match fmt with
  | .yuv420sp => DRM_FORMAT_NV12
  | .yuv420sp10 => DRM_FORMAT_NV12_10
  | .other => 0

/-- Function `rkmpp_get_usedslots`, rkmppdec.c lines 105-121.  The engine query
`control(MPP_DEC_GET_STREAM_COUNT)` is embedded as an `Option Int`:
`some n` when the control call succeeds and reports `n` in-flight
packets, `none` when it fails, in which case the C function logs and
returns 1. -/
def rkmpp_get_usedslots (query : Option Int) : Int :=
  match query with
  | some usedslots => usedslots
  | none => 1

/-- Function `rkmpp_accept_packet`, rkmppdec.c lines 123-128: the C function
returns the int `INPUT_MAX_PACKETS > usedslots`, embedded as a `Bool`. -/
def rkmpp_accept_packet (query : Option Int) : Bool :=
  INPUT_MAX_PACKETS > rkmpp_get_usedslots query

/-- The timestamp selection of `rkmpp_write_data`, rkmppdec.c lines
137-138 and 147: `if (!pts || pts == AV_NOPTS_VALUE) pts =
avctx->reordered_opaque;` — `stashed` is the previously stashed
`avctx->reordered_opaque` value. -/
def packet_pts (stashed pts : Int) : Int :=
  if pts = 0 ∨ pts = AV_NOPTS_VALUE then stashed else pts

/-- The MPP packet built by `rkmpp_write_data`, rkmppdec.c lines
140-150: `is_null` records whether the buffer pointer was NULL (the
end-of-stream marker case, which also sets the packet's eos flag). -/
structure MppPacket where
  is_null : Bool
  size : Int
  pts : Int
  eos : Bool
  deriving DecidableEq

/-- Function `rkmpp_write_data`, rkmppdec.c lines 130-166.  `init_ret` is the
result of `mpp_packet_init` and `put_ret` the result of
`decode_put_packet`; the returned `Option MppPacket` is the packet
handed to `decode_put_packet` (`none` when packet init failed and
nothing was offered to the engine).  Logging is elided. -/
def rkmpp_write_data (stashed : Int) (buffer_null : Bool) (size pts : Int)
    (init_ret put_ret : MppRet) : Int × Option MppPacket :=
  if init_ret ≠ MppRet.mppOk then
    (AVERROR_UNKNOWN, none)
  else
    let p : MppPacket :=
      { is_null := buffer_null, size := size,
        pts := packet_pts stashed pts, eos := buffer_null }
    let ret : Int :=
      if put_ret = MppRet.mppOk then 0
      else if put_ret = MppRet.mppErrBufferFull then AVERROR_EAGAIN
      else AVERROR_UNKNOWN
    (ret, some p)

/-- The geometry of an `AVHWFramesContext` as set by the info-change
branch of `rkmpp_retrieve_frame`, rkmppdec.c lines 519-523.  `format`
is always `AV_PIX_FMT_DRM_PRIME` there and is not repeated here;
`sw_fmt_nv12` records whether `sw_format` was set to `AV_PIX_FMT_NV12`
(as opposed to `AV_PIX_FMT_NONE`). -/
structure HWFramesCtx where
  width : Int
  height : Int
  sw_fmt_nv12 : Bool
  deriving DecidableEq

/-- The fields of `RKMPPDecoder` (rkmppdec.c lines 53-71) that the
adapter's control flow reads or writes.  The opaque native handles
`ctx`, `mpi`, `frame_group`, `device_ref` and the pool pointer itself
are elided; `frames_ref` keeps only the frames-context geometry. -/
structure RKMPPDecoder where
  first_packet : Bool
  eos_reached : Bool
  frames_ref : Option HWFramesCtx
  pool_size : Int
  print_fps : Bool
  last_fps_time : Nat
  frames : Nat
  deriving DecidableEq

/-- The value `rkmpp_init_decoder` gives `first_packet`, rkmppdec.c
line 283 (`decoder->first_packet = 1;`). -/
def rkmpp_init_first_packet : Bool := true

/-- The two `AVPacket` fields `rkmpp_send_packet` reads. -/
structure AVPacket where
  size : Int
  pts : Int
  deriving DecidableEq

/-- The inputs of one `rkmpp_send_packet` call that come from outside
the decoder state: the stashed `avctx->reordered_opaque` timestamp, the
`avctx->extradata_size`, and the engine results for the (up to two)
`rkmpp_write_data` calls — `extra_init`/`extra_put` for the extradata
write, `data_init`/`data_put` for the data (or end-of-stream) write. -/
structure SendEnv where
  stashed_pts : Int
  extradata_size : Int
  extra_init : MppRet
  extra_put : MppRet
  data_init : MppRet
  data_put : MppRet
  deriving DecidableEq

/-- Function `rkmpp_send_packet`, rkmppdec.c lines 304-340.  Returns the C
return value, the updated decoder state, and the list of MPP packets
offered to `decode_put_packet` in order.  Mirrors the control flow:
a zero-size packet sets `eos_reached` and writes a NULL/0 marker
packet; otherwise on the first packet a nonempty extradata is written
first (an error there returns before `first_packet` is cleared), then
`first_packet` is cleared and the data packet is written. -/
def rkmpp_send_packet (env : SendEnv) (dec : RKMPPDecoder) (pkt : AVPacket) :
    Int × RKMPPDecoder × List MppPacket :=
  if pkt.size = 0 then
    let dec' := { dec with eos_reached := true }
    let w := rkmpp_write_data env.stashed_pts true 0 0 env.data_init env.data_put
    (w.1, dec', w.2.toList)
  else
    if dec.first_packet ∧ env.extradata_size ≠ 0 then
      let w := rkmpp_write_data env.stashed_pts false env.extradata_size pkt.pts
        env.extra_init env.extra_put
      if w.1 ≠ 0 then
        (w.1, dec, w.2.toList)
      else
        let dec1 := { dec with first_packet := false }
        let w2 := rkmpp_write_data env.stashed_pts false pkt.size pkt.pts
          env.data_init env.data_put
        (w2.1, dec1, w.2.toList ++ w2.2.toList)
    else
      let dec1 := if dec.first_packet then { dec with first_packet := false } else dec
      let w2 := rkmpp_write_data env.stashed_pts false pkt.size pkt.pts
        env.data_init env.data_put
      (w2.1, dec1, w2.2.toList)

/-- Function `rkmpp_flush`, rkmppdec.c lines 756-771: on a successful engine
reset, restore `first_packet`, clear `eos_reached` and zero the fps
instrumentation counters; on failure only log (state untouched). -/
def rkmpp_flush (dec : RKMPPDecoder) (reset_ret : MppRet) : RKMPPDecoder :=
  if reset_ret = MppRet.mppOk then
    { dec with first_packet := true, eos_reached := false,
               last_fps_time := 0, frames := 0 }
  else
    dec

/-- The fields of an engine frame object (`MppFrame`) that
`rkmpp_retrieve_frame` reads: the classification flags, the geometry
and strides, the format, the timestamp, and the backing buffer
(`has_buffer` is whether `mpp_frame_get_buffer` returned non-NULL;
`buf_fd`/`buf_size` are `mpp_buffer_get_fd`/`mpp_buffer_get_size`).
Color metadata and the interlace mode are carried by the C code
verbatim and are elided here. -/
structure MppFrameObj where
  info_change : Bool
  eos : Bool
  discard : Bool
  errinfo : Bool
  width : Int
  height : Int
  hor_stride : Int
  ver_stride : Int
  fmt : MppFrameFormat
  pts : Int
  has_buffer : Bool
  buf_fd : Int
  buf_size : Int
  deriving DecidableEq

/-- The outside-world inputs consumed by one iteration of the
`retry:` loop of `rkmpp_retrieve_frame`: the result of
`decode_get_frame` (`poll_ret`, and `poll_frame` for the returned
`MppFrame`, `none` for NULL), the success of each allocation the
iteration may attempt, the result of `av_hwframe_ctx_init`, whether
the LIBRGA blit path succeeds in `rkmpp_convert_frame`, and the
`MPP_DEC_GET_STREAM_COUNT` query used by the retry check at the
`fail:` label. -/
structure Step where
  poll_ret : MppRet
  poll_frame : Option MppFrameObj
  alloc_frames_ref : Bool
  hwctx_init : Int
  rga_ok : Bool
  alloc_desc : Bool
  alloc_fcref : Bool
  alloc_buf : Bool
  alloc_hwfctx_ref : Bool
  usedslots : Option Int
  deriving DecidableEq

/-- The caller-visible state `rkmpp_retrieve_frame` mutates: the
`AVCodecContext` geometry fields, whether the negotiated pixel format
is `AV_PIX_FMT_DRM_PRIME`, whether the caller installed a custom
`get_buffer2` (rkmppdec.c line 557), and the `RKMPPDecoder` fields. -/
structure CodecState where
  width : Int
  height : Int
  coded_width : Int
  coded_height : Int
  pix_fmt_drm : Bool
  custom_get_buffer : Bool
  dec : RKMPPDecoder
  deriving DecidableEq

/-- Macro `FFALIGN(x, 64)` from libavutil/common.h:
`((x)+(64)-1)&~((64)-1)`.  For two's-complement values the mask by
`~63` clears the low six bits, i.e. subtracts `(x+63) mod 64` with a
nonnegative remainder, which is what `Int.emod` (Lean's `%` on `Int`)
computes. -/
def FFALIGN64 (x : Int) : Int := x + 63 - (x + 63) % 64

/-- The geometry update of the info-change branch of
`rkmpp_retrieve_frame`, rkmppdec.c lines 498-508: take the notice's
width/height, pad the coded dimensions to a multiple of 64, and unref
the old frames context. -/
def rkmpp_info_change (st : CodecState) (f : MppFrameObj) : CodecState :=
  { st with
    width := f.width, height := f.height,
    coded_width := FFALIGN64 f.width, coded_height := FFALIGN64 f.height,
    dec := { st.dec with frames_ref := none } }

/-- The layout the zero-copy path stores in the
`AVDRMFrameDescriptor`, rkmppdec.c lines 627-642: one object (its
dma-buf fd and size), one layer with the DRM fourcc, two planes whose
pitches are the engine's horizontal stride and whose second plane
starts after `hor_stride * ver_stride` bytes. -/
structure DRMDesc where
  fd : Int
  size : Int
  format : Int
  plane0_pitch : Int
  plane1_offset : Int
  plane1_pitch : Int
  deriving DecidableEq

/-- The `AVFrame` fields `rkmpp_retrieve_frame` fills that the claims
observe: geometry, timestamp, whether the frame is a DRM-prime frame,
the DRM descriptor (zero-copy path only) and the attached
hw-frames-context geometry.  Color metadata, interlace flags and the
software-path plane pointers are elided. -/
structure OutFrame where
  width : Int
  height : Int
  pts : Int
  fmt_drm : Bool
  drm_desc : Option DRMDesc
  hw_frames : Option HWFramesCtx
  deriving DecidableEq

/-- What one iteration of the `retry:` loop does: either finish the
call (`done`: C return value, the frame handed to the caller if any,
and the state), or jump back to `retry:` (`loop`). -/
inductive StepOutcome where
  | done (code : Int) (fr : Option OutFrame) (st : CodecState)
  | loop (st : CodecState)
  deriving DecidableEq

/-- The return value of `rkmpp_convert_frame`, rkmppdec.c lines
355-431: 0 only when the LIBRGA blit path succeeds; the row-by-row
software fallback (lines 413-430) always returns -1. -/
def rkmpp_convert_frame_ret (rga_ok : Bool) : Int :=
  if rga_ok then 0 else -1

/-- The `fail:` label of `rkmpp_retrieve_frame`, rkmppdec.c lines
689-708: after the cleanup, a call that would return `AVERROR(EAGAIN)`
jumps back to `retry:` when the engine still reports in-flight packets
(`rkmpp_get_usedslots` nonzero); every other code is returned. -/
def rkmpp_fail (st : CodecState) (step : Step) (code : Int) : StepOutcome :=
  if code = AVERROR_EAGAIN ∧ rkmpp_get_usedslots step.usedslots ≠ 0 then
    StepOutcome.loop st
  else
    StepOutcome.done code none st

/-- One iteration of the `retry:` loop of `rkmpp_retrieve_frame`,
rkmppdec.c lines 478-708, in the source's branch order: poll-result
check; info change (geometry update, change acknowledged, frames
context rebuilt, notice discarded, loop); eos frame; discard frame;
errinfo frame; missing backing buffer; software output path (pool
resized to the engine's buffer size when the default get_buffer2 is
in use, then `rkmpp_convert_frame`, whose value is returned via `goto
out`); zero-copy path (descriptor built, frame returned with 0).  The
fps instrumentation (wall-clock logging) is elided. -/
def rkmpp_retrieve_step (st : CodecState) (step : Step) : StepOutcome :=
  if step.poll_ret ≠ MppRet.mppOk ∧ step.poll_ret ≠ MppRet.mppErrTimeout then
    rkmpp_fail st step AVERROR_UNKNOWN
  else
    match step.poll_frame with
    | some f =>
      if f.info_change then
        let st1 := rkmpp_info_change st f
        if ¬ step.alloc_frames_ref then
          rkmpp_fail st1 step AVERROR_ENOMEM
        else
          let hw : HWFramesCtx :=
            { width := st1.width, height := st1.height,
              sw_fmt_nv12 := decide (rkmpp_get_frameformat f.fmt = DRM_FORMAT_NV12) }
          let st2 := { st1 with dec := { st1.dec with frames_ref := some hw } }
          if step.hwctx_init < 0 then
            rkmpp_fail st2 step step.hwctx_init
          else
            StepOutcome.loop st2
      else if f.eos then
        rkmpp_fail { st with dec := { st.dec with eos_reached := true } } step AVERROR_EOF
      else if f.discard then
        rkmpp_fail st step AVERROR_EAGAIN
      else if f.errinfo then
        rkmpp_fail st step AVERROR_UNKNOWN
      else if ¬ f.has_buffer then
        rkmpp_fail st step AVERROR_EAGAIN
      else if ¬ st.pix_fmt_drm then
        let st1 :=
          if ¬ st.custom_get_buffer ∧ st.dec.pool_size ≠ f.buf_size then
            { st with dec := { st.dec with pool_size := f.buf_size } }
          else st
        StepOutcome.done (rkmpp_convert_frame_ret step.rga_ok)
          (some { width := f.width, height := f.height, pts := f.pts,
                  fmt_drm := false, drm_desc := none, hw_frames := none }) st1
      else if ¬ step.alloc_desc then
        rkmpp_fail st step AVERROR_ENOMEM
      else if ¬ step.alloc_fcref then
        rkmpp_fail st step AVERROR_ENOMEM
      else if ¬ step.alloc_buf then
        rkmpp_fail st step AVERROR_ENOMEM
      else if ¬ step.alloc_hwfctx_ref then
        rkmpp_fail st step AVERROR_ENOMEM
      else
        StepOutcome.done 0
          (some { width := f.width, height := f.height, pts := f.pts,
                  fmt_drm := true,
                  drm_desc := some
                    { fd := f.buf_fd, size := f.buf_size,
                      format := rkmpp_get_frameformat f.fmt,
                      plane0_pitch := f.hor_stride,
                      plane1_offset := f.hor_stride * f.ver_stride,
                      plane1_pitch := f.hor_stride },
                  hw_frames := st.dec.frames_ref }) st
    | none =>
      if st.dec.eos_reached then
        StepOutcome.done AVERROR_EOF none st
      else if step.poll_ret = MppRet.mppErrTimeout then
        rkmpp_fail st step AVERROR_EAGAIN
      else
        rkmpp_fail st step AVERROR_UNKNOWN

/-- Function `rkmpp_retrieve_frame`, rkmppdec.c lines 463-709, run against a
finite trace of engine responses (one `Step` consumed per `retry:`
iteration).  `none` means the trace ended while the C loop would poll
again; `some (code, fr, st)` is the C return value, the frame given to
the caller, and the final state. -/
def rkmpp_retrieve_frame (st : CodecState) :
    List Step → Option (Int × Option OutFrame × CodecState)
  | [] => none
  | step :: rest =>
    match rkmpp_retrieve_step st step with
    | .done code fr st' => some (code, fr, st')
    | .loop st' => rkmpp_retrieve_frame st' rest

/-- A byte memory: the software conversion path reads and writes raw
`char` buffers through pointers, embedded as maps from byte offsets to
bytes. -/
def Mem : Type := Nat → UInt8

/-- A single byte store. -/
def wr (m : Mem) (a : Nat) (v : UInt8) : Mem :=
  fun x => if x = a then v else m x

/-- Model of `memcpy(dst + dOff, src + sOff, n)` over byte memories. -/
def copyBytes (dst : Mem) (dOff : Nat) (src : Mem) (sOff : Nat) : Nat → Mem
  | 0 => dst
  | n + 1 => wr (copyBytes dst dOff src sOff n) (dOff + n) (src (sOff + n))

/-- The luma loop of the software path of `rkmpp_convert_frame`,
rkmppdec.c lines 415-416: for each row `i` below the bound, copy
`width` bytes from `src + i*hstride` to `dst_y + i*y_pitch`. -/
def lumaLoop (dst src : Mem) (y_pitch hstride width : Nat) : Nat → Mem
  | 0 => dst
  | i + 1 =>
    copyBytes (lumaLoop dst src y_pitch hstride width i)
      (i * y_pitch) src (i * hstride) width

/-- The inner chroma loop of `rkmpp_convert_frame`, rkmppdec.c lines
421-424: `dst_u[j] = src[2*j]; dst_v[j] = src[2*j+1]` for each `j`
below the bound. -/
def chromaRow (du dv : Mem) (duOff dvOff : Nat) (src : Mem) (sOff : Nat) :
    Nat → Mem × Mem
  | 0 => (du, dv)
  | j + 1 =>
    (wr (chromaRow du dv duOff dvOff src sOff j).1 (duOff + j) (src (sOff + 2 * j)),
     wr (chromaRow du dv duOff dvOff src sOff j).2 (dvOff + j) (src (sOff + 2 * j + 1)))

/-- The outer chroma loop of `rkmpp_convert_frame`, rkmppdec.c lines
420-428: row `i` writes at `dst_u + i*u_pitch` / `dst_v + i*v_pitch`
and reads the interleaved chroma row at `src + base + i*hstride`,
where `base` is the luma-plane size `hstride*vstride` (line 418). -/
def chromaLoop (du dv : Mem) (u_pitch v_pitch hstride : Nat) (src : Mem)
    (base width : Nat) : Nat → Mem × Mem
  | 0 => (du, dv)
  | i + 1 =>
    chromaRow (chromaLoop du dv u_pitch v_pitch hstride src base width i).1
      (chromaLoop du dv u_pitch v_pitch hstride src base width i).2
      (i * u_pitch) (i * v_pitch) src (base + i * hstride) width

/-- The software (non-RGA) path of `rkmpp_convert_frame`, rkmppdec.c
lines 413-430: the result is the three destination planes after the
luma copy (`height` rows) and the chroma de-interleave (`height / 2`
rows, C integer division), paired with the C return value (line 430:
`return -1`).  `width`/`height` are the destination frame's
dimensions used as the loop bounds. -/
def rkmpp_convert_frame_sw (src dst_y dst_u dst_v : Mem)
    (width height hstride vstride y_pitch u_pitch v_pitch : Nat) :
    (Mem × Mem × Mem) × Int :=
  let y := lumaLoop dst_y src y_pitch hstride width height
  let c := chromaLoop dst_u dst_v u_pitch v_pitch hstride src
    (hstride * vstride) width (height / 2)
  ((y, c.1, c.2), -1)

/-- The reference-dropping events of the decoder lifetime protocol:
`close` is `rkmpp_close_decoder` (rkmppdec.c lines 168-178, which
unrefs the adapter's own `decoder_ref`), and `releaseFrame i` is
`rkmpp_release_frame` (lines 342-353) on the i-th outstanding
zero-copy frame, which unrefs that frame's `decoder_ref`. -/
inductive RefOp where
  | close
  | releaseFrame (i : Nat)
  deriving DecidableEq

/-- The shared-ownership state of one decoder instance.  `buf` is the
reference count of the `AVBufferRef` created over the `RKMPPDecoder`
by `rkmpp_init_decoder` (line 222); `adapter` is whether
`rk_context->decoder_ref` still holds its reference; `frames` is the
set of outstanding zero-copy frames, each holding the reference taken
by `av_buffer_ref` at line 654; `teardowns` counts how many times the
free callback `rkmpp_release_decoder` (lines 180-199: engine reset,
`mpp_destroy`, buffer-group put, device/frames unref) has run —
`av_buffer_unref` runs it exactly when the count drops to zero. -/
structure LifeState where
  buf : Nat
  teardowns : Nat
  adapter : Bool
  frames : Finset Nat
  deriving DecidableEq

/-- One lifetime event.  `av_buffer_unref` semantics: the count drops
by one and `rkmpp_release_decoder` fires exactly when it was the last
reference.  An op whose reference is no longer held does nothing (such
a sequence never arises in the claims, which release each reference
exactly once). -/
def lifeStep (s : LifeState) : RefOp → LifeState
  | .close =>
    if s.adapter then
      { buf := s.buf - 1,
        teardowns := s.teardowns + (if s.buf = 1 then 1 else 0),
        adapter := false, frames := s.frames }
    else s
  | .releaseFrame i =>
    if i ∈ s.frames then
      { buf := s.buf - 1,
        teardowns := s.teardowns + (if s.buf = 1 then 1 else 0),
        adapter := s.adapter, frames := s.frames.erase i }
    else s

/-- Run a sequence of lifetime events. -/
def runLife (s : LifeState) (l : List RefOp) : LifeState :=
  l.foldl lifeStep s

/-- The state after `rkmpp_init_decoder` issued `N` zero-copy frames:
the adapter holds one reference and each of the `N` outstanding
frames holds one, so the buffer's count is `N + 1`. -/
def initLife (N : Nat) : LifeState :=
  { buf := N + 1, teardowns := 0, adapter := true, frames := Finset.range N }

/-- An op's reference is still held in a state. -/
def lifeHeld : RefOp → LifeState → Prop
  | .close, s => s.adapter = true
  | .releaseFrame i, s => i ∈ s.frames

instance (op : RefOp) (s : LifeState) : Decidable (lifeHeld op s) :=
  match op with
  | .close => inferInstanceAs (Decidable (s.adapter = true))
  | .releaseFrame i => inferInstanceAs (Decidable (i ∈ s.frames))

/-- The `AVBufferRef` invariant: the count equals the number of
outstanding holders. -/
def lifeInv (s : LifeState) : Prop :=
  s.buf = (if s.adapter then 1 else 0) + s.frames.card

/-- A concrete decoder state for witnesses: mid-stream, no EOS. -/
def sampleDec : RKMPPDecoder :=
  { first_packet := false, eos_reached := false, frames_ref := none,
    pool_size := 0, print_fps := false, last_fps_time := 0, frames := 0 }

/-- A concrete codec state for witnesses (zero-copy mode). -/
def sampleSt : CodecState :=
  { width := 0, height := 0, coded_width := 0, coded_height := 0,
    pix_fmt_drm := true, custom_get_buffer := false, dec := sampleDec }

/-- A concrete info-change notice (100x70, NV12) for witnesses. -/
def sampleInfoFrame : MppFrameObj :=
  { info_change := true, eos := false, discard := false, errinfo := false,
    width := 100, height := 70, hor_stride := 128, ver_stride := 128,
    fmt := MppFrameFormat.yuv420sp, pts := 0, has_buffer := false,
    buf_fd := 0, buf_size := 0 }

/-- A concrete normal backed frame (100x70, NV12) for witnesses. -/
def sampleDataFrame : MppFrameObj :=
  { info_change := false, eos := false, discard := false, errinfo := false,
    width := 100, height := 70, hor_stride := 128, ver_stride := 128,
    fmt := MppFrameFormat.yuv420sp, pts := 42, has_buffer := true,
    buf_fd := 5, buf_size := 24576 }

/-- A retrieve-loop iteration input for witnesses, with every
allocation succeeding, carrying the given poll result. -/
def sampleStep (r : MppRet) (fo : Option MppFrameObj) : Step :=
  { poll_ret := r, poll_frame := fo, alloc_frames_ref := true,
    hwctx_init := 0, rga_ok := false, alloc_desc := true, alloc_fcref := true,
    alloc_buf := true, alloc_hwfctx_ref := true, usedslots := some 0 }

/-- A concrete source memory for witnesses: byte at offset `a` is
`a mod 256`. -/
def cSrc : Mem := fun a => UInt8.ofNat a

/-- The all-zero byte memory, for witness destination planes. -/
def cZero : Mem := fun _ => 0

/-- C2: `rkmpp_accept_packet` returns true iff the in-flight packet
count reported by the engine is strictly below 4, and when the count
query itself fails it still returns true (admits), never false. -/
theorem rkmpp_c2_admission :
    (∀ n : Int, rkmpp_accept_packet (some n) = true ↔ n < 4) ∧
    rkmpp_accept_packet none = true := by
  constructor
  · intro n
    simp [rkmpp_accept_packet, rkmpp_get_usedslots, INPUT_MAX_PACKETS]
  · rfl

/-- Witness for C2 at a concrete in-flight count. -/
theorem rkmpp_c2_admission_witness : rkmpp_accept_packet (some 2) = true :=
  (rkmpp_c2_admission.1 2).mpr (by decide)

/-- Counterexample to C8 as stated: a caller timestamp of 0 is set
(it differs from the unset sentinel `AV_NOPTS_VALUE`), yet
`rkmpp_write_data` tags the packet with the stashed reordered-opaque
value (here 5) instead of the caller's 0, because the C test is
`!pts || pts == AV_NOPTS_VALUE`. -/
theorem rkmpp_c8_cex :
    (0 : Int) ≠ AV_NOPTS_VALUE ∧
    (rkmpp_write_data 5 false 10 0 MppRet.mppOk MppRet.mppOk).2 =
      some { is_null := false, size := 10, pts := 5, eos := false } := by
  decide

/-- C8 (amended): the packet is tagged with the caller's timestamp
exactly when that timestamp is nonzero and set; when it is zero or
unset (`AV_NOPTS_VALUE`) the stashed reordered-opaque value is
substituted. -/
theorem rkmpp_c8_amended (stashed : Int) (bnull : Bool) (size pts : Int)
    (init_ret put_ret : MppRet) (hinit : init_ret = MppRet.mppOk) :
    ((pts ≠ 0 ∧ pts ≠ AV_NOPTS_VALUE) →
      ∃ p, (rkmpp_write_data stashed bnull size pts init_ret put_ret).2 = some p ∧
           p.pts = pts) ∧
    ((pts = 0 ∨ pts = AV_NOPTS_VALUE) →
      ∃ p, (rkmpp_write_data stashed bnull size pts init_ret put_ret).2 = some p ∧
           p.pts = stashed) := by
  subst hinit
  constructor
  · rintro ⟨h0, hn⟩
    refine ⟨{ is_null := bnull, size := size, pts := packet_pts stashed pts,
              eos := bnull }, ?_, ?_⟩
    · simp [rkmpp_write_data]
    · simp [packet_pts, h0, hn]
  · intro h
    refine ⟨{ is_null := bnull, size := size, pts := packet_pts stashed pts,
              eos := bnull }, ?_, ?_⟩
    · simp [rkmpp_write_data]
    · simp [packet_pts, h]

/-- Witness for C8 (amended) at concrete timestamps. -/
theorem rkmpp_c8_amended_witness :
    ∃ p, (rkmpp_write_data 5 false 10 7 MppRet.mppOk MppRet.mppOk).2 = some p ∧
         p.pts = 7 :=
  (rkmpp_c8_amended 5 false 10 7 MppRet.mppOk MppRet.mppOk rfl).1 ⟨by decide, by decide⟩

/-- C9: on a successful engine reset `rkmpp_flush` restores
`first_packet` to its init-time value, clears `eos_reached` and zeroes
the instrumentation counters; on failure the decoder state is left
untouched. -/
theorem rkmpp_c9_flush (dec : RKMPPDecoder) (reset_ret : MppRet) :
    (reset_ret = MppRet.mppOk →
      rkmpp_flush dec reset_ret =
        { dec with first_packet := rkmpp_init_first_packet, eos_reached := false,
                   last_fps_time := 0, frames := 0 }) ∧
    (reset_ret ≠ MppRet.mppOk → rkmpp_flush dec reset_ret = dec) := by
  constructor <;> intro h <;> simp [rkmpp_flush, rkmpp_init_first_packet, h]

/-- Witness for C9 at a concrete decoder state, both outcomes. -/
theorem rkmpp_c9_flush_witness :
    (rkmpp_flush
        { first_packet := false, eos_reached := true, frames_ref := none,
          pool_size := 3, print_fps := true, last_fps_time := 9, frames := 4 }
        MppRet.mppOk =
      { first_packet := true, eos_reached := false, frames_ref := none,
        pool_size := 3, print_fps := true, last_fps_time := 0, frames := 0 }) ∧
    (rkmpp_flush
        { first_packet := false, eos_reached := true, frames_ref := none,
          pool_size := 3, print_fps := true, last_fps_time := 9, frames := 4 }
        MppRet.mppNok =
      { first_packet := false, eos_reached := true, frames_ref := none,
        pool_size := 3, print_fps := true, last_fps_time := 9, frames := 4 }) :=
  ⟨(rkmpp_c9_flush _ _).1 rfl, (rkmpp_c9_flush _ _).2 (by decide)⟩

/-- Counterexample to C4 as stated: a first-ever data submission (no
extradata) on which the engine reports buffer full returns the
retryable `AVERROR(EAGAIN)`, yet `first_packet` has been flipped from
its pre-call value, because `rkmpp_send_packet` clears it before the
data write. -/
theorem rkmpp_c4_cex :
    (rkmpp_send_packet
        { stashed_pts := 0, extradata_size := 0, extra_init := MppRet.mppOk,
          extra_put := MppRet.mppOk, data_init := MppRet.mppOk,
          data_put := MppRet.mppErrBufferFull }
        { first_packet := true, eos_reached := false, frames_ref := none,
          pool_size := 0, print_fps := false, last_fps_time := 0, frames := 0 }
        { size := 1, pts := 1 }).1 = AVERROR_EAGAIN ∧
    (rkmpp_send_packet
        { stashed_pts := 0, extradata_size := 0, extra_init := MppRet.mppOk,
          extra_put := MppRet.mppOk, data_init := MppRet.mppOk,
          data_put := MppRet.mppErrBufferFull }
        { first_packet := true, eos_reached := false, frames_ref := none,
          pool_size := 0, print_fps := false, last_fps_time := 0, frames := 0 }
        { size := 1, pts := 1 }).2.1.first_packet = false := by
  decide

/-- C4 (amended): when the engine reports buffer full on the data
write of a nonzero-size submission, `rkmpp_send_packet` returns
`AVERROR(EAGAIN)` and leaves `eos_reached` unchanged; the decoder
state is completely unchanged when `first_packet` was already clear,
but on the stream's first submission `first_packet` ends up cleared
(it is cleared after any extradata write, before the data write), so
a retried submit proceeds as a non-first submission without resending
extradata. -/
theorem rkmpp_c4_amended (env : SendEnv) (dec : RKMPPDecoder) (pkt : AVPacket)
    (hsize : pkt.size ≠ 0) (hdi : env.data_init = MppRet.mppOk)
    (hdp : env.data_put = MppRet.mppErrBufferFull)
    (hextra : dec.first_packet = true → env.extradata_size ≠ 0 →
       env.extra_init = MppRet.mppOk ∧ env.extra_put = MppRet.mppOk) :
    (rkmpp_send_packet env dec pkt).1 = AVERROR_EAGAIN ∧
    (rkmpp_send_packet env dec pkt).2.1.eos_reached = dec.eos_reached ∧
    (rkmpp_send_packet env dec pkt).2.1.first_packet = false ∧
    (dec.first_packet = false → (rkmpp_send_packet env dec pkt).2.1 = dec) := by
  have hw2 : rkmpp_write_data env.stashed_pts false pkt.size pkt.pts
      env.data_init env.data_put =
      (AVERROR_EAGAIN,
       some ⟨false, pkt.size, packet_pts env.stashed_pts pkt.pts, false⟩) := by
    simp [rkmpp_write_data, hdi, hdp]
  by_cases hfp : dec.first_packet = true
  · by_cases hex : env.extradata_size = 0
    · simp [rkmpp_send_packet, hsize, hfp, hex, hw2]
    · obtain ⟨hei, hep⟩ := hextra hfp hex
      have hw1 : rkmpp_write_data env.stashed_pts false env.extradata_size pkt.pts
          env.extra_init env.extra_put =
          (0,
           some ⟨false, env.extradata_size, packet_pts env.stashed_pts pkt.pts, false⟩) := by
        simp [rkmpp_write_data, hei, hep]
      simp [rkmpp_send_packet, hsize, hfp, hex, hw1, hw2]
  · have hfp' : dec.first_packet = false := by
      cases h : dec.first_packet
      · rfl
      · exact absurd h hfp
    simp [rkmpp_send_packet, hsize, hfp', hw2]

/-- Witness for C4 (amended): a non-first submission hitting buffer
full leaves the decoder state untouched. -/
theorem rkmpp_c4_amended_witness :
    (rkmpp_send_packet
        { stashed_pts := 0, extradata_size := 2, extra_init := MppRet.mppOk,
          extra_put := MppRet.mppOk, data_init := MppRet.mppOk,
          data_put := MppRet.mppErrBufferFull }
        { first_packet := false, eos_reached := false, frames_ref := none,
          pool_size := 0, print_fps := false, last_fps_time := 0, frames := 0 }
        { size := 1, pts := 1 }).1 = AVERROR_EAGAIN ∧
    (rkmpp_send_packet
        { stashed_pts := 0, extradata_size := 2, extra_init := MppRet.mppOk,
          extra_put := MppRet.mppOk, data_init := MppRet.mppOk,
          data_put := MppRet.mppErrBufferFull }
        { first_packet := false, eos_reached := false, frames_ref := none,
          pool_size := 0, print_fps := false, last_fps_time := 0, frames := 0 }
        { size := 1, pts := 1 }).2.1 =
      { first_packet := false, eos_reached := false, frames_ref := none,
        pool_size := 0, print_fps := false, last_fps_time := 0, frames := 0 } := by
  refine ⟨(rkmpp_c4_amended _ _ _ (by decide) rfl rfl ?_).1,
          (rkmpp_c4_amended _ _ _ (by decide) rfl rfl ?_).2.2.2 rfl⟩ <;>
    intro h <;> exact absurd h (by decide)

/-- C3: submitting a zero-size packet sets `eos_reached` and offers
the engine an EOS-marked zero-length packet; and once a poll yields no
frame while `eos_reached` is set, `rkmpp_retrieve_frame` returns
`AVERROR_EOF` (with the state unchanged, so every later retrieval does
the same), never the retryable code. -/
theorem rkmpp_c3_eos :
    (∀ (env : SendEnv) (dec : RKMPPDecoder) (pkt : AVPacket), pkt.size = 0 →
       (rkmpp_send_packet env dec pkt).2.1.eos_reached = true ∧
       (env.data_init = MppRet.mppOk →
         ∃ p, (rkmpp_send_packet env dec pkt).2.2 = [p] ∧
              p.size = 0 ∧ p.is_null = true ∧ p.eos = true)) ∧
    (∀ (st : CodecState) (step : Step) (rest : List Step),
       st.dec.eos_reached = true →
       (step.poll_ret = MppRet.mppOk ∨ step.poll_ret = MppRet.mppErrTimeout) →
       step.poll_frame = none →
       rkmpp_retrieve_frame st (step :: rest) = some (AVERROR_EOF, none, st)) := by
  constructor
  · intro env dec pkt hsize
    refine ⟨by simp [rkmpp_send_packet, hsize], ?_⟩
    intro hdi
    refine ⟨⟨true, 0, packet_pts env.stashed_pts 0, true⟩, ?_, rfl, rfl, rfl⟩
    simp [rkmpp_send_packet, hsize, rkmpp_write_data, hdi]
  · intro st step rest heos hret hfr
    have hstep : rkmpp_retrieve_step st step = StepOutcome.done AVERROR_EOF none st := by
      rcases hret with h | h <;> simp [rkmpp_retrieve_step, h, hfr, heos]
    simp [rkmpp_retrieve_frame, hstep]

/-- Witness for C3 at a concrete decoder state and engine trace. -/
theorem rkmpp_c3_eos_witness :
    (rkmpp_send_packet
        { stashed_pts := 0, extradata_size := 0, extra_init := MppRet.mppOk,
          extra_put := MppRet.mppOk, data_init := MppRet.mppOk,
          data_put := MppRet.mppOk }
        sampleDec { size := 0, pts := 0 }).2.1.eos_reached = true ∧
    rkmpp_retrieve_frame { sampleSt with dec := { sampleDec with eos_reached := true } }
        [sampleStep MppRet.mppOk none] =
      some (AVERROR_EOF, none,
        { sampleSt with dec := { sampleDec with eos_reached := true } }) :=
  ⟨(rkmpp_c3_eos.1 _ _ _ rfl).1,
   rkmpp_c3_eos.2 { sampleSt with dec := { sampleDec with eos_reached := true } }
     (sampleStep MppRet.mppOk none) [] rfl (Or.inl rfl) rfl⟩

/-- C5: an info-change notice never reaches the caller as a frame:
the iteration that consumes it either loops (on success, with the
caller-visible geometry set to exactly the notice's width and height,
the coded geometry padded, and the frames context rebuilt at that
geometry) or fails with no frame attached. -/
theorem rkmpp_c5_info_change (st : CodecState) (step : Step) (f : MppFrameObj)
    (hret : step.poll_ret = MppRet.mppOk)
    (hf : step.poll_frame = some f) (hic : f.info_change = true) :
    (∀ code ofr st', rkmpp_retrieve_step st step = StepOutcome.done code ofr st' →
       ofr = none) ∧
    (step.alloc_frames_ref = true → 0 ≤ step.hwctx_init →
       ∃ st2, rkmpp_retrieve_step st step = StepOutcome.loop st2 ∧
         st2.width = f.width ∧ st2.height = f.height ∧
         st2.coded_width = FFALIGN64 f.width ∧
         st2.coded_height = FFALIGN64 f.height ∧
         st2.dec.frames_ref =
           some ⟨f.width, f.height,
                 decide (rkmpp_get_frameformat f.fmt = DRM_FORMAT_NV12)⟩) ∧
    (∀ (rest : List Step) (st2 : CodecState),
       rkmpp_retrieve_step st step = StepOutcome.loop st2 →
       rkmpp_retrieve_frame st (step :: rest) = rkmpp_retrieve_frame st2 rest) := by
  refine ⟨?_, ?_, ?_⟩
  · intro code ofr st' h
    by_cases halloc : step.alloc_frames_ref = true
    · by_cases hinit : step.hwctx_init < 0
      · simp only [rkmpp_retrieve_step, hret, hf, hic, halloc, hinit,
          rkmpp_fail] at h
        simp at h
        split at h
        · cases h
        · cases h
          rfl
      · simp [rkmpp_retrieve_step, hret, hf, hic, halloc, hinit] at h
    · have halloc' : step.alloc_frames_ref = false := by
        cases hh : step.alloc_frames_ref
        · rfl
        · exact absurd hh halloc
      simp only [rkmpp_retrieve_step, hret, hf, hic, halloc', rkmpp_fail] at h
      simp at h
      split at h
      · cases h
      · cases h
        rfl
  · intro halloc hinit
    have hinit' : ¬ step.hwctx_init < 0 := by omega
    refine ⟨{ rkmpp_info_change st f with
              dec := { (rkmpp_info_change st f).dec with
                       frames_ref := some ⟨f.width, f.height,
                         decide (rkmpp_get_frameformat f.fmt = DRM_FORMAT_NV12)⟩ } },
            ?_, ?_, ?_, ?_, ?_, ?_⟩ <;>
      simp [rkmpp_retrieve_step, hret, hf, hic, halloc, hinit', rkmpp_info_change]
  · intro rest st2 h
    simp [rkmpp_retrieve_frame, h]

/-- Witness for C5 at a concrete state and notice. -/
theorem rkmpp_c5_info_change_witness :
    ∃ st2,
      rkmpp_retrieve_step sampleSt (sampleStep MppRet.mppOk (some sampleInfoFrame)) =
        StepOutcome.loop st2 ∧
      st2.width = sampleInfoFrame.width ∧ st2.height = sampleInfoFrame.height ∧
      st2.coded_width = FFALIGN64 sampleInfoFrame.width ∧
      st2.coded_height = FFALIGN64 sampleInfoFrame.height ∧
      st2.dec.frames_ref =
        some ⟨sampleInfoFrame.width, sampleInfoFrame.height,
              decide (rkmpp_get_frameformat sampleInfoFrame.fmt = DRM_FORMAT_NV12)⟩ :=
  (rkmpp_c5_info_change sampleSt (sampleStep MppRet.mppOk (some sampleInfoFrame))
    sampleInfoFrame rfl rfl rfl).2.1 rfl (by decide)

/-- C6: after an info-change notice with nonnegative reported width
and height, the resulting geometry satisfies width ≤ coded_width and
height ≤ coded_height, and the coded dimensions are the reported ones
rounded up to the next multiple of 64. -/
theorem rkmpp_c6_geometry (st : CodecState) (f : MppFrameObj)
    (hw : 0 ≤ f.width) (hh : 0 ≤ f.height) :
    ((rkmpp_info_change st f).width ≤ (rkmpp_info_change st f).coded_width ∧
     (64 : Int) ∣ (rkmpp_info_change st f).coded_width ∧
     (rkmpp_info_change st f).coded_width < (rkmpp_info_change st f).width + 64) ∧
    ((rkmpp_info_change st f).height ≤ (rkmpp_info_change st f).coded_height ∧
     (64 : Int) ∣ (rkmpp_info_change st f).coded_height ∧
     (rkmpp_info_change st f).coded_height < (rkmpp_info_change st f).height + 64) := by
  have hdvd : ∀ x : Int, (64 : Int) ∣ FFALIGN64 x := by
    intro x
    exact ⟨(x + 63) / 64, by unfold FFALIGN64; omega⟩
  refine ⟨⟨?_, ?_, ?_⟩, ⟨?_, ?_, ?_⟩⟩ <;>
    simp only [rkmpp_info_change] <;>
    first
      | exact hdvd _
      | (unfold FFALIGN64; omega)

/-- Witness for C6 at a concrete notice geometry. -/
theorem rkmpp_c6_geometry_witness :
    (rkmpp_info_change sampleSt sampleInfoFrame).width ≤
      (rkmpp_info_change sampleSt sampleInfoFrame).coded_width ∧
    (64 : Int) ∣ (rkmpp_info_change sampleSt sampleInfoFrame).coded_width :=
  ⟨((rkmpp_c6_geometry sampleSt sampleInfoFrame (by decide) (by decide)).1).1,
   ((rkmpp_c6_geometry sampleSt sampleInfoFrame (by decide) (by decide)).1).2.1⟩

/-- C10: in software-output mode, a normal backed frame whose
conversion goes down the row-by-row software path makes
`rkmpp_convert_frame` return -1 (its software tail always does), and
`rkmpp_retrieve_frame` hands that -1 to the caller as its own return
value alongside the produced frame, instead of 0. -/
theorem rkmpp_c10_sw_return (st : CodecState) (step : Step) (f : MppFrameObj)
    (rest : List Step)
    (hdrm : st.pix_fmt_drm = false) (hret : step.poll_ret = MppRet.mppOk)
    (hf : step.poll_frame = some f)
    (h1 : f.info_change = false) (h2 : f.eos = false) (h3 : f.discard = false)
    (h4 : f.errinfo = false) (h5 : f.has_buffer = true) (hrga : step.rga_ok = false) :
    (∀ (src a b c : Mem) (w h hs vs yp up vp : Nat),
       (rkmpp_convert_frame_sw src a b c w h hs vs yp up vp).2 = -1) ∧
    ∃ fr st', rkmpp_retrieve_frame st (step :: rest) = some (-1, some fr, st') := by
  refine ⟨fun _ _ _ _ _ _ _ _ _ _ _ => rfl, ?_⟩
  have hstep : rkmpp_retrieve_step st step = StepOutcome.done
      (rkmpp_convert_frame_ret step.rga_ok)
      (some ⟨f.width, f.height, f.pts, false, none, none⟩)
      (if ¬ st.custom_get_buffer ∧ st.dec.pool_size ≠ f.buf_size then
        { st with dec := { st.dec with pool_size := f.buf_size } }
       else st) := by
    simp [rkmpp_retrieve_step, hret, hf, h1, h2, h3, h4, h5, hdrm]
  refine ⟨⟨f.width, f.height, f.pts, false, none, none⟩,
          (if ¬ st.custom_get_buffer ∧ st.dec.pool_size ≠ f.buf_size then
            { st with dec := { st.dec with pool_size := f.buf_size } }
           else st), ?_⟩
  simp [rkmpp_retrieve_frame, hstep, rkmpp_convert_frame_ret, hrga]

/-- Witness for C10 at a concrete state and frame. -/
theorem rkmpp_c10_sw_return_witness :
    ∃ fr st',
      rkmpp_retrieve_frame { sampleSt with pix_fmt_drm := false }
        [sampleStep MppRet.mppOk (some sampleDataFrame)] =
        some (-1, some fr, st') :=
  (rkmpp_c10_sw_return { sampleSt with pix_fmt_drm := false }
    (sampleStep MppRet.mppOk (some sampleDataFrame)) sampleDataFrame []
    rfl rfl rfl rfl rfl rfl rfl rfl rfl).2

theorem wr_self (m : Mem) (a : Nat) (v : UInt8) : wr m a v a = v := by
  simp [wr]

theorem wr_other (m : Mem) (a : Nat) (v : UInt8) (x : Nat) (h : x ≠ a) :
    wr m a v x = m x := by
  simp [wr, h]

theorem copyBytes_get (dst src : Mem) (dOff sOff : Nat) (k n : Nat) (hk : k < n) :
    copyBytes dst dOff src sOff n (dOff + k) = src (sOff + k) := by
  induction n with
  | zero => omega
  | succ n ih =>
    by_cases hkn : k = n
    · subst hkn
      simp [copyBytes, wr_self]
    · have hk' : k < n := by omega
      simp only [copyBytes]
      rw [wr_other _ _ _ _ (by omega)]
      exact ih hk'

theorem copyBytes_outside (dst src : Mem) (dOff sOff : Nat) (n x : Nat)
    (h : ∀ k, k < n → x ≠ dOff + k) :
    copyBytes dst dOff src sOff n x = dst x := by
  induction n with
  | zero => rfl
  | succ n ih =>
    simp only [copyBytes]
    rw [wr_other _ _ _ _ (h n (by omega))]
    exact ih (fun k hk => h k (by omega))

theorem lumaLoop_get (dst src : Mem) (y_pitch hstride width rows : Nat)
    (i j : Nat) (hwp : width ≤ y_pitch) (hi : i < rows) (hj : j < width) :
    lumaLoop dst src y_pitch hstride width rows (i * y_pitch + j) =
      src (i * hstride + j) := by
  induction rows with
  | zero => omega
  | succ r ih =>
    simp only [lumaLoop]
    by_cases hir : i = r
    · subst hir
      exact copyBytes_get _ _ _ _ j width hj
    · have hir' : i < r := by omega
      rw [copyBytes_outside]
      · exact ih hir'
      · intro k hk
        have h1 : i * y_pitch + j < (i + 1) * y_pitch := by
          have hjp : j < y_pitch := lt_of_lt_of_le hj hwp
          calc i * y_pitch + j < i * y_pitch + y_pitch := by omega
            _ = (i + 1) * y_pitch := by ring
        have h2 : (i + 1) * y_pitch ≤ r * y_pitch :=
          Nat.mul_le_mul_right _ (by omega)
        exact Nat.ne_of_lt
          (lt_of_lt_of_le (lt_of_lt_of_le h1 h2) (Nat.le_add_right _ _))

theorem chromaRow_u_get (du dv : Mem) (duOff dvOff : Nat) (src : Mem)
    (sOff : Nat) (k n : Nat) (hk : k < n) :
    (chromaRow du dv duOff dvOff src sOff n).1 (duOff + k) = src (sOff + 2 * k) := by
  induction n with
  | zero => omega
  | succ n ih =>
    by_cases hkn : k = n
    · subst hkn
      simp [chromaRow, wr_self]
    · have hk' : k < n := by omega
      simp only [chromaRow]
      rw [wr_other _ _ _ _ (by omega)]
      exact ih hk'

theorem chromaRow_u_outside (du dv : Mem) (duOff dvOff : Nat) (src : Mem)
    (sOff : Nat) (n x : Nat) (h : ∀ k, k < n → x ≠ duOff + k) :
    (chromaRow du dv duOff dvOff src sOff n).1 x = du x := by
  induction n with
  | zero => rfl
  | succ n ih =>
    simp only [chromaRow]
    rw [wr_other _ _ _ _ (h n (by omega))]
    exact ih (fun k hk => h k (by omega))

theorem chromaRow_v_get (du dv : Mem) (duOff dvOff : Nat) (src : Mem)
    (sOff : Nat) (k n : Nat) (hk : k < n) :
    (chromaRow du dv duOff dvOff src sOff n).2 (dvOff + k) =
      src (sOff + 2 * k + 1) := by
  induction n with
  | zero => omega
  | succ n ih =>
    by_cases hkn : k = n
    · subst hkn
      simp [chromaRow, wr_self]
    · have hk' : k < n := by omega
      simp only [chromaRow]
      rw [wr_other _ _ _ _ (by omega)]
      exact ih hk'

theorem chromaRow_v_outside (du dv : Mem) (duOff dvOff : Nat) (src : Mem)
    (sOff : Nat) (n x : Nat) (h : ∀ k, k < n → x ≠ dvOff + k) :
    (chromaRow du dv duOff dvOff src sOff n).2 x = dv x := by
  induction n with
  | zero => rfl
  | succ n ih =>
    simp only [chromaRow]
    rw [wr_other _ _ _ _ (h n (by omega))]
    exact ih (fun k hk => h k (by omega))

theorem chromaLoop_u_get (du dv : Mem) (u_pitch v_pitch hstride : Nat)
    (src : Mem) (base width rows : Nat) (i j : Nat)
    (hwp : width ≤ u_pitch) (hi : i < rows) (hj : j < width) :
    (chromaLoop du dv u_pitch v_pitch hstride src base width rows).1
        (i * u_pitch + j) =
      src (base + i * hstride + 2 * j) := by
  induction rows with
  | zero => omega
  | succ r ih =>
    simp only [chromaLoop]
    by_cases hir : i = r
    · subst hir
      exact chromaRow_u_get _ _ _ _ _ _ j width hj
    · have hir' : i < r := by omega
      rw [chromaRow_u_outside]
      · exact ih hir'
      · intro k hk
        have h1 : i * u_pitch + j < (i + 1) * u_pitch := by
          have hjp : j < u_pitch := lt_of_lt_of_le hj hwp
          calc i * u_pitch + j < i * u_pitch + u_pitch := by omega
            _ = (i + 1) * u_pitch := by ring
        have h2 : (i + 1) * u_pitch ≤ r * u_pitch :=
          Nat.mul_le_mul_right _ (by omega)
        exact Nat.ne_of_lt
          (lt_of_lt_of_le (lt_of_lt_of_le h1 h2) (Nat.le_add_right _ _))

theorem chromaLoop_v_get (du dv : Mem) (u_pitch v_pitch hstride : Nat)
    (src : Mem) (base width rows : Nat) (i j : Nat)
    (hwp : width ≤ v_pitch) (hi : i < rows) (hj : j < width) :
    (chromaLoop du dv u_pitch v_pitch hstride src base width rows).2
        (i * v_pitch + j) =
      src (base + i * hstride + 2 * j + 1) := by
  induction rows with
  | zero => omega
  | succ r ih =>
    simp only [chromaLoop]
    by_cases hir : i = r
    · subst hir
      exact chromaRow_v_get _ _ _ _ _ _ j width hj
    · have hir' : i < r := by omega
      rw [chromaRow_v_outside]
      · exact ih hir'
      · intro k hk
        have h1 : i * v_pitch + j < (i + 1) * v_pitch := by
          have hjp : j < v_pitch := lt_of_lt_of_le hj hwp
          calc i * v_pitch + j < i * v_pitch + v_pitch := by omega
            _ = (i + 1) * v_pitch := by ring
        have h2 : (i + 1) * v_pitch ≤ r * v_pitch :=
          Nat.mul_le_mul_right _ (by omega)
        exact Nat.ne_of_lt
          (lt_of_lt_of_le (lt_of_lt_of_le h1 h2) (Nat.le_add_right _ _))

/-- C7: for a semi-planar source with strides `hstride`/`vstride`, the
software conversion writes a luma plane whose rows 0..height-1 equal
the first `width` bytes of the source rows taken at stride `hstride`,
and U/V planes at half vertical resolution holding the even- and
odd-indexed bytes of each chroma row of the source region starting at
offset `hstride * vstride`.  The destination pitches must be at least
`width` (any sane `AVFrame` layout), or rows would alias. -/
theorem rkmpp_c7_convert (src dst_y dst_u dst_v : Mem)
    (width height hstride vstride y_pitch u_pitch v_pitch : Nat)
    (hyo : width ≤ y_pitch) (huo : width ≤ u_pitch) (hvo : width ≤ v_pitch) :
    (∀ i j, i < height → j < width →
      (rkmpp_convert_frame_sw src dst_y dst_u dst_v width height hstride vstride
          y_pitch u_pitch v_pitch).1.1 (i * y_pitch + j) =
        src (i * hstride + j)) ∧
    (∀ i j, i < height / 2 → j < width →
      (rkmpp_convert_frame_sw src dst_y dst_u dst_v width height hstride vstride
          y_pitch u_pitch v_pitch).1.2.1 (i * u_pitch + j) =
        src (hstride * vstride + i * hstride + 2 * j) ∧
      (rkmpp_convert_frame_sw src dst_y dst_u dst_v width height hstride vstride
          y_pitch u_pitch v_pitch).1.2.2 (i * v_pitch + j) =
        src (hstride * vstride + i * hstride + 2 * j + 1)) := by
  refine ⟨?_, ?_⟩
  · intro i j hi hj
    exact lumaLoop_get dst_y src y_pitch hstride width height i j hyo hi hj
  · intro i j hi hj
    exact ⟨chromaLoop_u_get dst_u dst_v u_pitch v_pitch hstride src
             (hstride * vstride) width (height / 2) i j huo hi hj,
           chromaLoop_v_get dst_u dst_v u_pitch v_pitch hstride src
             (hstride * vstride) width (height / 2) i j hvo hi hj⟩

/-- Witness for C7 on a concrete 2x2 semi-planar source. -/
theorem rkmpp_c7_convert_witness :
    (rkmpp_convert_frame_sw cSrc cZero cZero cZero 2 2 4 2 2 2 2).1.1
        (1 * 2 + 1) = cSrc (1 * 4 + 1) ∧
    (rkmpp_convert_frame_sw cSrc cZero cZero cZero 2 2 4 2 2 2 2).1.2.1
        (0 * 2 + 1) = cSrc (4 * 2 + 0 * 4 + 2 * 1) ∧
    (rkmpp_convert_frame_sw cSrc cZero cZero cZero 2 2 4 2 2 2 2).1.2.2
        (0 * 2 + 1) = cSrc (4 * 2 + 0 * 4 + 2 * 1 + 1) :=
  ⟨(rkmpp_c7_convert cSrc cZero cZero cZero 2 2 4 2 2 2 2
      (by decide) (by decide) (by decide)).1 1 1 (by decide) (by decide),
   ((rkmpp_c7_convert cSrc cZero cZero cZero 2 2 4 2 2 2 2
      (by decide) (by decide) (by decide)).2 0 1 (by decide) (by decide)).1,
   ((rkmpp_c7_convert cSrc cZero cZero cZero 2 2 4 2 2 2 2
      (by decide) (by decide) (by decide)).2 0 1 (by decide) (by decide)).2⟩

theorem lifeStep_eq_close (s : LifeState) (h : s.adapter = true) :
    lifeStep s RefOp.close =
      { buf := s.buf - 1,
        teardowns := s.teardowns + (if s.buf = 1 then 1 else 0),
        adapter := false, frames := s.frames } := by
  simp [lifeStep, h]

theorem lifeStep_eq_release (s : LifeState) (i : Nat) (h : i ∈ s.frames) :
    lifeStep s (RefOp.releaseFrame i) =
      { buf := s.buf - 1,
        teardowns := s.teardowns + (if s.buf = 1 then 1 else 0),
        adapter := s.adapter, frames := s.frames.erase i } := by
  simp [lifeStep, h]

theorem lifeStep_held_iff (s : LifeState) (op op' : RefOp)
    (hop : lifeHeld op s) (hne : op' ≠ op) :
    lifeHeld op' (lifeStep s op) ↔ lifeHeld op' s := by
  cases op with
  | close =>
    rw [lifeStep_eq_close s hop]
    cases op' with
    | close => exact absurd rfl hne
    | releaseFrame j => simp [lifeHeld]
  | releaseFrame i =>
    rw [lifeStep_eq_release s i hop]
    cases op' with
    | close => simp [lifeHeld]
    | releaseFrame j =>
      have hij : j ≠ i := fun he => hne (by rw [he])
      simp [lifeHeld, Finset.mem_erase, hij]

theorem lifeStep_inv (s : LifeState) (op : RefOp)
    (hinv : lifeInv s) (h : lifeHeld op s) : lifeInv (lifeStep s op) := by
  cases op with
  | close =>
    have hA : s.adapter = true := h
    rw [lifeStep_eq_close s hA]
    unfold lifeInv at hinv ⊢
    simp only [hA, if_true] at hinv
    simp only [Bool.false_eq_true, if_false]
    omega
  | releaseFrame i =>
    have hm : i ∈ s.frames := h
    rw [lifeStep_eq_release s i hm]
    unfold lifeInv at hinv ⊢
    have hcard : (s.frames.erase i).card = s.frames.card - 1 :=
      Finset.card_erase_of_mem hm
    have hpos : 1 ≤ s.frames.card := Finset.card_pos.mpr ⟨i, hm⟩
    cases hA : s.adapter <;> simp [hA, hcard] at hinv ⊢ <;> omega

theorem lifeHeld_buf_pos (s : LifeState) (op : RefOp)
    (hinv : lifeInv s) (h : lifeHeld op s) : 1 ≤ s.buf := by
  unfold lifeInv at hinv
  cases op with
  | close =>
    have hA : s.adapter = true := h
    simp only [hA, if_true] at hinv
    omega
  | releaseFrame i =>
    have hpos : 1 ≤ s.frames.card := Finset.card_pos.mpr ⟨i, h⟩
    cases hA : s.adapter <;> simp only [hA] at hinv <;> omega

theorem runLife_spec (ops : List RefOp) :
    ∀ s : LifeState, lifeInv s → ops.Nodup → (∀ op ∈ ops, lifeHeld op s) →
      (runLife s ops).buf = s.buf - ops.length ∧
      lifeInv (runLife s ops) ∧
      (∀ op', lifeHeld op' s → op' ∉ ops → lifeHeld op' (runLife s ops)) ∧
      (runLife s ops).teardowns =
        s.teardowns + (if 0 < ops.length ∧ s.buf ≤ ops.length then 1 else 0) := by
  induction ops with
  | nil =>
    intro s hinv hnd hheld
    refine ⟨by simp [runLife], by simpa [runLife] using hinv,
            fun op' h _ => by simpa [runLife] using h, by simp [runLife]⟩
  | cons op rest ih =>
    intro s hinv hnd hheld
    have hop : lifeHeld op s := hheld op (by simp)
    have hnd' : rest.Nodup := (List.nodup_cons.mp hnd).2
    have hopnot : op ∉ rest := (List.nodup_cons.mp hnd).1
    have hbufpos : 1 ≤ s.buf := lifeHeld_buf_pos s op hinv hop
    have hinv' : lifeInv (lifeStep s op) := lifeStep_inv s op hinv hop
    have hbuf' : (lifeStep s op).buf = s.buf - 1 := by
      cases op with
      | close => rw [lifeStep_eq_close s hop]
      | releaseFrame i => rw [lifeStep_eq_release s i hop]
    have htd' : (lifeStep s op).teardowns =
        s.teardowns + (if s.buf = 1 then 1 else 0) := by
      cases op with
      | close => rw [lifeStep_eq_close s hop]
      | releaseFrame i => rw [lifeStep_eq_release s i hop]
    have hheld' : ∀ o ∈ rest, lifeHeld o (lifeStep s op) := by
      intro o ho
      have hne : o ≠ op := fun he => hopnot (he ▸ ho)
      exact (lifeStep_held_iff s op o hop hne).mpr (hheld o (by simp [ho]))
    have hrun : runLife s (op :: rest) = runLife (lifeStep s op) rest := rfl
    obtain ⟨ihb, ihinv, ihheld, ihtd⟩ := ih (lifeStep s op) hinv' hnd' hheld'
    refine ⟨?_, ?_, ?_, ?_⟩
    · rw [hrun, ihb, hbuf']
      simp only [List.length_cons]
      omega
    · rw [hrun]; exact ihinv
    · intro op' hh hnot
      rw [hrun]
      refine ihheld op' ?_ (fun hr => hnot (by simp [hr]))
      exact (lifeStep_held_iff s op op' hop
        (fun he => hnot (by simp [he]))).mpr hh
    · rw [hrun, ihtd, htd', hbuf']
      simp only [List.length_cons]
      by_cases h1 : s.buf = 1
      · have hrest : rest = [] := by
          cases rest with
          | nil => rfl
          | cons o2 r2 =>
            have h2 : lifeHeld o2 (lifeStep s op) := hheld' o2 (by simp)
            have h3 : 1 ≤ (lifeStep s op).buf :=
              lifeHeld_buf_pos (lifeStep s op) o2 hinv' h2
            omega
        subst hrest
        simp [h1]
      · have h2 : 2 ≤ s.buf := by omega
        have hlhs : (if s.buf = 1 then 1 else 0) = 0 := by simp [h1]
        rw [hlhs]
        by_cases hc : 0 < rest.length ∧ s.buf - 1 ≤ rest.length
        · have hc' : 0 < rest.length + 1 ∧ s.buf ≤ rest.length + 1 :=
            ⟨Nat.succ_pos _, by omega⟩
          rw [if_pos hc, if_pos hc']
        · have hc' : ¬ (0 < rest.length + 1 ∧ s.buf ≤ rest.length + 1) := by
            rintro ⟨hp, hq⟩
            rcases Nat.eq_zero_or_pos rest.length with hz | hpos2
            · omega
            · exact hc ⟨hpos2, by omega⟩
          rw [if_neg hc, if_neg hc']

/-- C1: for any interleaving in which `rkmpp_close_decoder` runs once
and each of the `N` outstanding zero-copy frames is released once via
`rkmpp_release_frame`, every event still finds the shared decoder
reference alive (no freed state is touched, in particular a frame
release after close), and the teardown callback
`rkmpp_release_decoder` runs exactly once, precisely at the event
that drops the last reference. -/
theorem rkmpp_c1_lifecycle (N : Nat) (ops : List RefOp)
    (hperm : ops.Perm (RefOp.close :: (List.range N).map RefOp.releaseFrame)) :
    (runLife (initLife N) ops).teardowns = 1 ∧
    (∀ pre op suf, ops = pre ++ op :: suf →
       (lifeHeld op (runLife (initLife N) pre) ∧
        1 ≤ (runLife (initLife N) pre).buf) ∧
       (runLife (initLife N) (pre ++ [op])).teardowns =
         (if suf = [] then 1 else 0)) := by
  have hfullnd : (RefOp.close :: (List.range N).map RefOp.releaseFrame).Nodup := by
    refine List.nodup_cons.mpr ⟨?_, ?_⟩
    · simp
    · exact (List.nodup_range N).map (fun a b h => by injection h)
  have hnd : ops.Nodup := (hperm.nodup_iff).mpr hfullnd
  have hlen : ops.length = N + 1 := by
    have h := hperm.length_eq
    simpa using h
  have hheldall : ∀ op ∈ ops, lifeHeld op (initLife N) := by
    intro op hop
    have hmem : op ∈ RefOp.close :: (List.range N).map RefOp.releaseFrame :=
      hperm.subset hop
    rcases List.mem_cons.mp hmem with h | h
    · subst h; rfl
    · obtain ⟨i, hi, rfl⟩ := List.mem_map.mp h
      show i ∈ (initLife N).frames
      exact Finset.mem_range.mpr (List.mem_range.mp hi)
  have hinv : lifeInv (initLife N) := by
    simp [lifeInv, initLife, Finset.card_range] <;> omega
  have hinitbuf : (initLife N).buf = N + 1 := rfl
  have hinittd : (initLife N).teardowns = 0 := rfl
  obtain ⟨hb, hinv2, hheld2, htd⟩ :=
    runLife_spec ops (initLife N) hinv hnd hheldall
  constructor
  · rw [htd, hinitbuf, hinittd, hlen]
    simp
  · intro pre op suf heq
    have hpre_sub : ∀ o ∈ pre, o ∈ ops := by
      intro o ho
      rw [heq]
      exact List.mem_append.mpr (Or.inl ho)
    have hndsplit : (pre ++ op :: suf).Nodup := heq ▸ hnd
    have hprend : pre.Nodup := hndsplit.of_append_left
    have hpreheld : ∀ o ∈ pre, lifeHeld o (initLife N) :=
      fun o ho => hheldall o (hpre_sub o ho)
    obtain ⟨hbp, hinvp, hheldp, htdp⟩ :=
      runLife_spec pre (initLife N) hinv hprend hpreheld
    have hopin : op ∈ ops := by rw [heq]; simp
    have hopnotpre : op ∉ pre := by
      intro hc
      exact List.disjoint_of_nodup_append hndsplit hc (by simp)
    have hopheld : lifeHeld op (runLife (initLife N) pre) :=
      hheldp op (hheldall op hopin) hopnotpre
    have hlenpre : pre.length + suf.length + 1 = N + 1 := by
      have hgl := congrArg List.length heq
      simp [hlen] at hgl
      omega
    have hbufpre : 1 ≤ (runLife (initLife N) pre).buf := by
      rw [hbp, hinitbuf]
      omega
    have heq2 : ops = (pre ++ [op]) ++ suf := by
      rw [heq]
      simp
    have hnd2 : (pre ++ [op]).Nodup := (heq2 ▸ hnd).of_append_left
    have hheld3 : ∀ o ∈ pre ++ [op], lifeHeld o (initLife N) := by
      intro o ho
      rcases List.mem_append.mp ho with h | h
      · exact hpreheld o h
      · have h' : o = op := by simpa using h
        rw [h']
        exact hheldall op hopin
    obtain ⟨hb3, hinv3, hheld4, htd3⟩ :=
      runLife_spec (pre ++ [op]) (initLife N) hinv hnd2 hheld3
    refine ⟨⟨hopheld, hbufpre⟩, ?_⟩
    rw [htd3, hinitbuf, hinittd]
    have hlen2 : (pre ++ [op]).length = pre.length + 1 := by simp
    rw [hlen2]
    by_cases hsuf : suf = []
    · subst hsuf
      have hpn : pre.length = N := by simpa using hlenpre
      have hcond : 0 < pre.length + 1 ∧ N + 1 ≤ pre.length + 1 :=
        ⟨Nat.succ_pos _, by omega⟩
      rw [if_pos hcond, if_pos rfl]
    · have hslen : 1 ≤ suf.length :=
        Nat.pos_of_ne_zero (fun h => hsuf (List.length_eq_zero.mp h))
      have hcond : ¬ (0 < pre.length + 1 ∧ N + 1 ≤ pre.length + 1) := by
        rintro ⟨hp, hq⟩
        omega
      rw [if_neg hcond, if_neg hsuf]

/-- Witness for C1: two outstanding frames, one released before close
and one after; the teardown runs exactly once. -/
theorem rkmpp_c1_lifecycle_witness :
    (runLife (initLife 2)
      [RefOp.releaseFrame 0, RefOp.close, RefOp.releaseFrame 1]).teardowns = 1 :=
  (rkmpp_c1_lifecycle 2 [RefOp.releaseFrame 0, RefOp.close, RefOp.releaseFrame 1]
    (by decide)).1

end Rkmpp
